import Mathlib

/-!
Shallow embedding of `katdal/chunkstore_s3.py` (an S3-style chunk store):
the session pool, the construction-time responsiveness probe, the chunk
get/put operations, the paginated listing protocol and the bounded-timeout
transport configuration, together with theorems settling the specification
claims about them.

Python strings that are manipulated positionally (keys, markers) are
embedded as `List Char`; machine-level details that no claim touches
(URL quoting, MD5 header contents) are noted where they are elided.
-/

namespace Katdal

/-- Python string, embedded as its character list so that positional slicing
(`key[len(prefix) + 1:-4]`) is literal `List.drop`/`List.take`. -/
abbrev PyStr := List Char

/-- Exception taxonomy of `katdal.chunkstore`.
Modelled from the spec: `katdal/chunkstore.py` is not under `src/`; §4.2/§7 of
the spec define `StoreUnavailable`, `ChunkNotFound`, `BadChunk` and
`InvalidChunk` as store-level error kinds, distinct from the transport
library's `requests.exceptions.RequestException` hierarchy (raw transport
types are translated into these kinds at the scope boundary, never the other
way around). -/
inductive Exc where
  | storeUnavailable (msg : String)
  | chunkNotFound (msg : String)
  | badChunk (msg : String)
  | invalidChunk (msg : String)
deriving DecidableEq, Repr

/-! ## Session pool (`_Pool`)

Sessions are identified by the numeric order of their creation; the factory
hands out a fresh identifier and bumps the creation counter.  The Python pool
is a list used as a stack: `put` appends at the end, `get` pops the last
element (`self._pool.pop()`), creating via the factory when empty. -/

/-- Pop the LAST element of a list, as Python `list.pop()` does. -/
def popLast : List Nat → Option (Nat × List Nat)
  | [] => none
  | [x] => some (x, [])
  | x :: y :: xs =>
    match popLast (y :: xs) with
    | some (z, zs) => some (z, x :: zs)
    | none => none

/-- State of a `_Pool`: the idle list (`self._pool`) plus how many sessions the
factory has created so far (which also names the next fresh session). -/
structure PoolState where
  idle : List Nat
  created : Nat
deriving DecidableEq, Repr

/-- `_Pool.get`: pop an idle item if the pool is non-empty, else call the
factory (modelled as minting the identifier `created`). -/
def Pool.get (p : PoolState) : Nat × PoolState :=
  match popLast p.idle with
  | none => (p.created, { idle := [], created := p.created + 1 })
  | some (x, rest) => (x, { idle := rest, created := p.created })

/-- `_Pool.put`: append the item back onto the idle list. -/
def Pool.put (p : PoolState) (item : Nat) : PoolState :=
  { p with idle := p.idle ++ [item] }

/-- `_Pool.__call__` exactly as written: `item = self.get(); yield item;
self.put(item)`.  There is no `try`/`finally` around the `yield`, so when the
`with`-body raises, the exception is thrown into the generator at the `yield`
and the trailing `self.put(item)` never runs; the resulting pool state is the
one from just after `get`. -/
def poolScope (p : PoolState) (body : Nat → Except Exc α) :
    Except Exc α × PoolState :=
  let (item, p1) := Pool.get p
  match body item with
  | .ok a => (.ok a, Pool.put p1 item)
  | .error e => (.error e, p1)

/-- One caller-visible pool event: an acquisition (`get`) or the release
(`put`) of some currently held session. -/
inductive PoolOp where
  | acquire
  | release
deriving DecidableEq, Repr

/-- A trace is well formed when every release has a matching earlier
acquisition still outstanding (the program only ever puts back sessions it
got from the pool). -/
def wfFrom (outstanding : Nat) : List PoolOp → Bool
  | [] => true
  | .acquire :: rest => wfFrom (outstanding + 1) rest
  | .release :: rest => decide (0 < outstanding) && wfFrom (outstanding - 1) rest

/-- Instrumented run state: the pool itself, the sessions currently held by
callers, and the peak number of simultaneously outstanding acquisitions. -/
structure PoolRun where
  idle : List Nat
  created : Nat
  outstanding : List Nat
  peak : Nat
deriving DecidableEq, Repr

/-- Effect of one event on the instrumented state.  A release with nothing
outstanding has no session to give back and leaves the state unchanged (such
events are excluded by `wfFrom`). -/
def poolStep (s : PoolRun) : PoolOp → PoolRun
  | .acquire =>
    let (item, p') := Pool.get ⟨s.idle, s.created⟩
    let out := s.outstanding ++ [item]
    { idle := p'.idle, created := p'.created, outstanding := out,
      peak := max s.peak out.length }
  | .release =>
    match s.outstanding with
    | [] => s
    | h :: t =>
      { idle := (Pool.put ⟨s.idle, s.created⟩ h).idle, created := s.created,
        outstanding := t, peak := s.peak }

/-- Run a trace of pool events from the freshly constructed (empty) pool. -/
def runPool (ops : List PoolOp) : PoolRun :=
  ops.foldl poolStep ⟨[], 0, [], 0⟩

theorem popLast_eq_none {l : List Nat} : popLast l = none ↔ l = [] := by
  cases l with
  | nil => simp [popLast]
  | cons x xs =>
    cases xs with
    | nil => simp [popLast]
    | cons y ys =>
      simp only [popLast]
      cases h : popLast (y :: ys) with
      | none =>
        exact absurd (popLast_eq_none.mp h) (by simp)
      | some p => simp

theorem popLast_spec {l rest : List Nat} {x : Nat}
    (h : popLast l = some (x, rest)) : x ∈ l ∧ rest.length + 1 = l.length := by
  induction l generalizing x rest with
  | nil => simp [popLast] at h
  | cons a as ih =>
    cases as with
    | nil =>
      simp [popLast] at h
      obtain ⟨hx, hr⟩ := h
      subst hx; subst hr; simp
    | cons b bs =>
      simp only [popLast] at h
      cases h2 : popLast (b :: bs) with
      | none => rw [h2] at h; simp at h
      | some p =>
        rw [h2] at h
        obtain ⟨z, zs⟩ := p
        simp at h
        obtain ⟨hx, hr⟩ := h
        subst hx
        obtain ⟨hz, hlen⟩ := ih h2
        constructor
        · exact List.mem_cons_of_mem a hz
        · subst hr; simp [← hlen]

/-- Accounting invariant of an instrumented run: every session ever created is
either idle or held, and the creation count always equals the peak. -/
def poolInvariant (s : PoolRun) : Prop :=
  s.created = s.outstanding.length + s.idle.length ∧ s.peak = s.created

theorem poolStep_invariant {s : PoolRun} (h : poolInvariant s) (op : PoolOp) :
    poolInvariant (poolStep s op) := by
  obtain ⟨hsum, hpeak⟩ := h
  cases op with
  | acquire =>
    cases hp : popLast s.idle with
    | none =>
      have hidle : s.idle = [] := popLast_eq_none.mp hp
      rw [hidle] at hsum
      simp at hsum
      constructor
      · simp [poolStep, Pool.get, hp]
        omega
      · simp [poolStep, Pool.get, hp]
        rw [hpeak]
        omega
    | some p =>
      obtain ⟨x, rest⟩ := p
      obtain ⟨_, hlen⟩ := popLast_spec hp
      constructor
      · simp [poolStep, Pool.get, hp]
        omega
      · simp [poolStep, Pool.get, hp]
        rw [hpeak]
        omega
  | release =>
    cases hout : s.outstanding with
    | nil => simp only [poolStep, hout]; exact ⟨hsum, hpeak⟩
    | cons h t =>
      rw [hout] at hsum
      constructor
      · simp [poolStep, hout, Pool.put]
        simp at hsum
        omega
      · simp [poolStep, hout, Pool.put, hpeak]

theorem runPool_invariant (ops : List PoolOp) : poolInvariant (runPool ops) := by
  suffices h : ∀ (l : List PoolOp) (s : PoolRun), poolInvariant s →
      poolInvariant (l.foldl poolStep s) by
    exact h ops ⟨[], 0, [], 0⟩ ⟨by simp, by simp⟩
  intro l
  induction l with
  | nil => intro s hs; exact hs
  | cons op rest ih =>
    intro s hs
    exact ih (poolStep s op) (poolStep_invariant hs op)

/-! ## Paginated listing (`list_chunk_ids`)

The XML listing document is embedded at the level `list_chunk_ids` consumes
it: the texts of the `Key` elements in document order, the `IsTruncated`
element and the `NextMarker` element as returned by `root.find`.  An
ElementTree element's Python truthiness (`if next_marker:`) is
`len(element) != 0`, which counts its SUBELEMENTS, not its text. -/

/-- ElementTree XML element as used by `list_chunk_ids`: its text and its
direct subelements (only their presence feeds Python truthiness). -/
inductive Element where
  | mk (text : Option PyStr) (children : List Element)

/-- Text of an element (`element.text`). -/
def Element.text : Element → Option PyStr
  | .mk t _ => t

/-- Subelements of an element. -/
def Element.children : Element → List Element
  | .mk _ c => c

/-- Python truthiness of an ElementTree element: `len(self) != 0`, counting
subelements. -/
def Element.truthy (el : Element) : Bool :=
  !el.children.isEmpty

/-- One parsed listing response: texts of its `Key` elements in document
order, `root.find(IsTruncated)` and `root.find(NextMarker)`.  `Key` elements
are assumed to carry their key as text (a textless `Key` would inject Python
`None` into the key list, which no claim exercises). -/
structure ListPage where
  keys : List PyStr
  isTruncated : Option Element
  nextMarker : Option Element

/-- Truncation test from the source: `truncated is not None and
truncated.text == 'true'`. -/
def pageTruncated (p : ListPage) : Bool :=
  match p.isTruncated with
  | some el => decide (el.text = some "true".data)
  | none => false

/-- Outcome of the marker-selection step of one truncated page: either the
loop continues with `params['marker']` set to the given value, or it warns
(`Result had no keys but was marked as truncated`) and stops. -/
inductive MarkerStep where
  | continueWith (marker : Option PyStr)
  | stopWarn
deriving DecidableEq, Repr

/-- Marker selection exactly as written for a truncated page, given the keys
accumulated so far:
`if next_marker: params['marker'] = next_marker.text`
`elif keys: params['marker'] = keys[-1]`
`else: warn(...); more = False`.
`if next_marker:` is Python truthiness of the element — true exactly when the
`NextMarker` element has subelements — NOT an `is not None` test. -/
def selectMarker (nextMarker : Option Element) (keys : List PyStr) :
    MarkerStep :=
  match nextMarker with
  | some el =>
    if el.truthy then .continueWith el.text
    else if h : keys = [] then .stopWarn
    else .continueWith (some (keys.getLast h))
  | none =>
    if h : keys = [] then .stopWarn
    else .continueWith (some (keys.getLast h))

/-- The `while more:` loop of `list_chunk_ids`, run against the sequence of
pages the backend returns to successive listing requests (the i-th issued
request receives the i-th page).  Returns the accumulated raw keys, the
number of listing requests issued, and whether the zero-keys warning fired;
`none` means the loop wanted another page than the model supplies. -/
def listLoop : List ListPage → List PyStr → Nat → Option (List PyStr × Nat × Bool)
  | [], _, _ => none
  | page :: rest, acc, n =>
    let acc2 := acc ++ page.keys
    if pageTruncated page then
      match selectMarker page.nextMarker acc2 with
      | .continueWith _ => listLoop rest acc2 (n + 1)
      | .stopWarn => some (acc2, n + 1, true)
    else some (acc2, n + 1, false)

/-- Python `key[len(prefix) + 1:-4]`: drop the path prefix plus the `/`
delimiter, then drop the trailing four characters (`.npy`). -/
def stripKey (pre : PyStr) (key : PyStr) : PyStr :=
  let rest := key.drop (pre.length + 1)
  rest.take (rest.length - 4)

/-- The `.npy` key suffix. -/
def npyExt : PyStr := ".npy".data

/-- Python `key.endswith('.npy')`. -/
def endsNpy (key : PyStr) : Bool :=
  npyExt.isSuffixOf key

/-- The final list comprehension of `list_chunk_ids`:
`[key[len(prefix) + 1:-4] for key in keys if key.endswith('.npy')]`. -/
def stripKeys (pre : PyStr) (keys : List PyStr) : List PyStr :=
  (keys.filter endsNpy).map (stripKey pre)

/-- `list_chunk_ids` against a backend returning the given page sequence:
run the pagination loop, then strip prefix and `.npy` suffix from each key.
The second component is the number of listing requests issued and the third
records whether the truncated-with-no-keys warning fired. -/
def list_chunk_ids (pages : List ListPage) (pre : PyStr) :
    Option (List PyStr × Nat × Bool) :=
  match listLoop pages [] 0 with
  | none => none
  | some (keys, n, warned) => some (stripKeys pre keys, n, warned)

/-! ## Construction probe (`S3ChunkStore.__init__` and `_raise_for_status`) -/

/-- Transport-level outcome of the probe GET on the base URL: either a
`requests.exceptions.RequestException` (connection-level failure, carried as
its message) or a completed HTTP response with a status code. -/
inductive ProbeOutcome where
  | requestException (msg : String)
  | response (status : Nat)
deriving DecidableEq, Repr

/-- `_raise_for_status`: `response.raise_for_status()` raises
`requests.HTTPError` exactly for 4xx/5xx status codes; the except clause
turns a 404 into `ChunkNotFound` and any other HTTP error into
`StoreUnavailable`. -/
def raise_for_status (status : Nat) : Except Exc Unit :=
  if 400 ≤ status ∧ status < 600 then
    if status = 404 then
      .error (.chunkNotFound ("HTTP error " ++ toString status))
    else
      .error (.storeUnavailable ("HTTP error " ++ toString status))
  else
    .ok ()

/-- Probe part of `S3ChunkStore.__init__`: run `session.get(url)` and
`_raise_for_status` inside `try ... except requests.exceptions.RequestException
as error: raise StoreUnavailable(str(error))`.  The store-level exceptions
raised by `_raise_for_status` are not `RequestException`s, so the except
clause does not catch them and they propagate as they are.  Returns `ok` when
the store object is constructed (probe passed). -/
def S3Init (probe : ProbeOutcome) : Except Exc Unit :=
  match probe with
  | .requestException msg => .error (.storeUnavailable msg)
  | .response status => raise_for_status status

/-- Convenience predicate: the probe did not succeed (a connection-level
failure, or a completed response with an HTTP error status). -/
def probeFails (probe : ProbeOutcome) : Bool :=
  match probe with
  | .requestException _ => true
  | .response status => decide (400 ≤ status ∧ status < 600)

/-- Decidable test used to state that a result is a `StoreUnavailable`. -/
def isStoreUnavailable (r : Except Exc Unit) : Bool :=
  match r with
  | .error (.storeUnavailable _) => true
  | _ => false

/-! ## Bounded construction deadline (`S3ChunkStore.from_url`) -/

/-- Message of the deadline-exceeded failure, from the source:
`'Timed out, possibly due to DNS lookup of {} stalling'.format(hostname)`. -/
def dnsStallMsg (hostname : String) : String :=
  "Timed out, possibly due to DNS lookup of " ++ hostname ++ " stalling"

/-- `from_url` with a finite (non-`None`) timeout: the construction worker
runs `_from_url` on a background thread and the caller waits on the queue
with deadline `timeout + extra_timeout` (`timeout += extra_timeout` before
`queue.get`).  The worker's behaviour is summarised by when it would deliver
its result (`workerTime`) and what that result is (the constructed store, or
the exception `_from_url` raised, re-raised with its original type via the
stored exc_info).  If the deadline elapses first, `Queue.Empty` is caught and
`StoreUnavailable` with the DNS-stall message is raised. -/
def from_url (timeout extraTimeout : ℚ) (hostname : String)
    (workerTime : ℚ) (workerResult : Except Exc Unit) : Except Exc Unit :=
  if workerTime ≤ timeout + extraTimeout then
    match workerResult with
    | .ok s => .ok s
    | .error e => .error e
  else
    .error (.storeUnavailable (dnsStallMsg hostname))

/-! ## Bounded-timeout transport (retry discipline)

The source configures its HTTP stack with
`_TimeoutHTTPAdapter(max_retries=2, timeout=timeout)` (in `session_factory`);
the retry machinery itself lives in the external requests/urllib3 adapter,
not in this repository. -/

/-- HTTP method of a store request. -/
inductive Method where
  | GET
  | HEAD
  | PUT
deriving DecidableEq, Repr

/-- Failure of one request attempt: a connection-level error (the request
never completed an exchange) or a completed exchange with an HTTP error
status. -/
inductive ReqFailure where
  | connectionError (msg : String)
  | httpStatus (code : Nat)
deriving DecidableEq, Repr

/-- Retry cap configured by the source: `max_retries=2` in `session_factory`. -/
def adapterMaxRetries : Nat := 2

/-- Modelled from the spec: which requests the adapter stack may retry.
The retry discipline of the requests/urllib3 adapter is not part of this
repository; spec §4.4/§7 state retries apply to idempotent GET/HEAD requests
only — never PUT. -/
def retryableMethod : Method → Bool
  | .GET => true
  | .HEAD => true
  | .PUT => false

/-- Modelled from the spec: the adapter's send loop (external requests/urllib3
code).  `attempt i` is the transport outcome of the i-th attempt of the
request.  A failed attempt is retried only when it failed at the connection
level, the method is idempotent (GET/HEAD) and retries remain; any completed
exchange with an error status, and any failure of a non-idempotent request,
propagates immediately.  Returns the final outcome and the number of attempts
issued. -/
def sendLoop (m : Method) (attempt : Nat → Except ReqFailure Nat) :
    Nat → Nat → Except ReqFailure Nat × Nat
  | 0, i =>
    match attempt i with
    | .ok r => (.ok r, i + 1)
    | .error f => (.error f, i + 1)
  | k + 1, i =>
    match attempt i with
    | .ok r => (.ok r, i + 1)
    | .error (.connectionError msg) =>
      if retryableMethod m then sendLoop m attempt k (i + 1)
      else (.error (.connectionError msg), i + 1)
    | .error (.httpStatus code) => (.error (.httpStatus code), i + 1)

/-- Send a request through the adapter configured by `session_factory`
(`max_retries=2`). -/
def send (m : Method) (attempt : Nat → Except ReqFailure Nat) :
    Except ReqFailure Nat × Nat :=
  sendLoop m attempt adapterMaxRetries 0

/-! ## Chunk get/put (`get_chunk`, `put_chunk`)

An N-dimensional numpy array is embedded as its shape, its dtype name and its
elements flattened in row-major order.  The NPY codec (`np.lib.format.write_array`
/ `read_array` with `allow_pickle=False`) is numpy, external to this
repository; per spec §6 it is a self-describing encoding carrying dtype and
shape alongside the raw elements, so it is embedded as that record, with
encode and decode exchanging the array and its byte-level form unchanged. -/

/-- An in-memory numpy array: shape, dtype name, elements in row-major order. -/
structure NDArray where
  shape : List Nat
  dtype : String
  data : List Int
deriving DecidableEq, Repr

/-- Byte-level form of a stored chunk: the NPY header's dtype and shape plus
the raw element bytes (spec §6, `Binary chunk format`). -/
structure NpyBytes where
  headerDtype : String
  headerShape : List Nat
  raw : List Int
deriving DecidableEq, Repr

/-- `np.lib.format.write_array(fp, chunk, allow_pickle=False)`: serialise the
array into the self-describing format. -/
def write_array (a : NDArray) : NpyBytes :=
  ⟨a.dtype, a.shape, a.data⟩

/-- `np.lib.format.read_array(data, allow_pickle=False)`: decode the
self-describing format back into an array (a body that does not decode at all
raises out of the codec and is outside the claims settled here). -/
def read_array (b : NpyBytes) : NDArray :=
  ⟨b.headerShape, b.headerDtype, b.raw⟩

/-- Per-dimension index range of a chunk: (start, stop) along one axis. -/
abbrev Slices := List (Nat × Nat)

/-- Shape implied by the index ranges: the length of each range. -/
def sliceShape (slices : Slices) : List Nat :=
  slices.map fun se => se.2 - se.1

/-- Zero-padded rendering of one start index for the chunk's index string. -/
def zeroPad (width n : Nat) : String :=
  let s := toString n
  String.mk (List.replicate (width - s.length) '0') ++ s

/-- Index string of a chunk: each dimension's start index zero-padded, joined
by an underscore (e.g. `00001_00512`). -/
def idxString (slices : Slices) : String :=
  "_".intercalate (slices.map fun se => zeroPad 5 se.1)

/-- Chunk name and expected shape derived from array name and index ranges.
Modelled from the spec: `chunk_metadata` lives in `katdal/chunkstore.py`,
which is not under `src/`; spec §3/§4.1 give the chunk name as
`<array-name>/<index-string>` and the expected shape as the per-dimension
range lengths.  (Its out-of-bounds validation raises `InvalidChunk` before
any I/O; the claims settled here quantify over ranges that pass it.) -/
def chunk_metadata (arrayName : String) (slices : Slices) :
    String × List Nat :=
  (arrayName ++ "/" ++ idxString slices, sliceShape slices)

/-- A byte-preserving object store backend: the bytes last PUT at each key
(URL quoting of the key is a bijective renaming and is elided). -/
def ObjStore := String → Option NpyBytes

/-- `put_chunk`: derive the chunk name, encode the array with `write_array`
into an in-memory buffer and PUT it at the chunk's URL (the `Content-MD5`
header carries a checksum of the encoded bytes; the backend stores the body
unchanged).  Returns the updated backend contents. -/
def put_chunk (store : ObjStore) (arrayName : String) (slices : Slices)
    (chunk : NDArray) : ObjStore :=
  let name := (chunk_metadata arrayName slices).1
  fun k => if k = name then some (write_array chunk) else store k

/-- `get_chunk`: derive the chunk name and expected shape, GET the chunk's
URL (a missing object is an HTTP 404, hence `ChunkNotFound` via
`_raise_for_status`), decode the body with `read_array`, then
`if chunk.shape != shape or chunk.dtype != dtype: raise BadChunk(...)`,
else return the decoded array. -/
def get_chunk (store : ObjStore) (arrayName : String) (slices : Slices)
    (dtype : String) : Except Exc NDArray :=
  let meta := chunk_metadata arrayName slices
  match store meta.1 with
  | none => .error (.chunkNotFound meta.1)
  | some bytes =>
    let chunk := read_array bytes
    if chunk.shape ≠ meta.2 ∨ chunk.dtype ≠ dtype then
      .error (.badChunk ("Chunk " ++ meta.1 ++ ": dtype and/or shape in store differs from expected"))
    else
      .ok chunk

/-! ## Theorems settling the claims -/

/-- C1: the claim says every store operation returns the acquired session to
the pool on every exit path, including when the request body raises.  The
code does not: `_Pool.__call__` has no `try`/`finally` around its `yield`, so
evaluating it at a failing input — a pool holding one idle session `7` and a
body that raises (as `_raise_for_status` does inside `_request` on an HTTP
error) — leaves the pool's idle set empty: the session is never returned. -/
theorem C1_session_lost_on_body_exception :
    (poolScope ⟨[7], 1⟩
      (fun _ => (.error (.storeUnavailable "HTTP error 500") : Except Exc Unit))).2
      = ⟨[], 1⟩
  ∧ (poolScope ⟨[7], 1⟩
      (fun _ => (.error (.storeUnavailable "HTTP error 500") : Except Exc Unit))).1
      = .error (.storeUnavailable "HTTP error 500")
  ∧ (poolScope ⟨[7], 1⟩ (fun _ => (.ok 0 : Except Exc Nat))).2 = ⟨[7], 1⟩ := by
  refine ⟨rfl, rfl, rfl⟩

/-- C2: the claim says the next marker is taken from `NextMarker` whenever the
backend supplies one, with the last key only as fallback.  Evaluating the
marker-selection step at a failing input: a truncated page whose `NextMarker`
element carries the text `m2` (and, as always for a text marker, no
subelements) while keys `k1` have been retrieved.  `if next_marker:` tests
element truthiness — subelement count — so the supplied marker is ignored and
the fallback last key is used; with the same `NextMarker` and no keys, the
loop even warns and stops although the backend supplied a marker. -/
theorem C2_supplied_nextMarker_ignored :
    selectMarker (some (.mk (some "m2".data) [])) ["k1".data]
      = .continueWith (some "k1".data)
  ∧ selectMarker (some (.mk (some "m2".data) [])) [] = .stopWarn
  ∧ (Element.mk (some "m2".data) []).truthy = false := by
  refine ⟨rfl, rfl, rfl⟩

/-- C3 counterexample: the claim says any probe failure — including an HTTP
404 — makes construction fail with `StoreUnavailable`.  At status 404 the
probe's `_raise_for_status` raises `ChunkNotFound`, which is not a
`requests.exceptions.RequestException`, so `__init__`'s except clause does
not remap it: construction fails with `ChunkNotFound`, not
`StoreUnavailable`. -/
theorem C3_probe_404_is_chunkNotFound :
    S3Init (.response 404) = .error (.chunkNotFound ("HTTP error " ++ toString 404))
  ∧ isStoreUnavailable (S3Init (.response 404)) = false := by
  refine ⟨rfl, rfl⟩

/-- C3 (amended): every probe failure makes construction fail — no store
object is returned; connection-level failures (`RequestException`) and
non-404 HTTP error statuses fail with `StoreUnavailable`, while a 404 from
the probe fails with `ChunkNotFound`. -/
theorem C3_probe_failure_classified (probe : ProbeOutcome)
    (h : probeFails probe = true) :
    (∃ e, S3Init probe = .error e)
  ∧ (∀ msg, probe = .requestException msg →
      S3Init probe = .error (.storeUnavailable msg))
  ∧ (∀ status, probe = .response status → status ≠ 404 →
      S3Init probe = .error (.storeUnavailable ("HTTP error " ++ toString status)))
  ∧ (probe = .response 404 →
      S3Init probe = .error (.chunkNotFound ("HTTP error " ++ toString 404))) := by
  cases probe with
  | requestException msg =>
    refine ⟨⟨.storeUnavailable msg, rfl⟩, fun m hm => ?_, fun s hs _ => by simp at hs,
      fun hc => by simp at hc⟩
    cases hm
    rfl
  | response status =>
    simp only [probeFails, decide_eq_true_eq] at h
    refine ⟨?_, fun m hm => by simp at hm, fun s hs hne => ?_, fun hc => ?_⟩
    · by_cases h4 : status = 404
      · subst h4
        exact ⟨.chunkNotFound ("HTTP error " ++ toString 404), by simp [S3Init, raise_for_status, h]⟩
      · exact ⟨.storeUnavailable ("HTTP error " ++ toString status),
          by simp [S3Init, raise_for_status, h, h4]⟩
    · cases hs
      simp [S3Init, raise_for_status, h, hne]
    · cases hc
      simp [S3Init, raise_for_status, h]

/-- Witness for C3's amended theorem at concrete probes: a completed 500 and a
connection failure. -/
theorem C3_probe_failure_classified_witness :
    S3Init (.response 500) = .error (.storeUnavailable ("HTTP error " ++ toString 500))
  ∧ S3Init (.requestException "connection refused")
      = .error (.storeUnavailable "connection refused") :=
  ⟨(C3_probe_failure_classified (.response 500) (by decide)).2.2.1 500 rfl (by decide),
   (C3_probe_failure_classified (.requestException "connection refused")
      rfl).2.1 "connection refused" rfl⟩

/-- C4: when the GET succeeds (bytes `b` are stored under the chunk's key)
and the body decodes, the decoded array is returned if and only if its shape
and dtype exactly equal the shape derived from the index ranges and the
requested dtype; on any mismatch the call raises `BadChunk`, and nothing but
the decoded array is ever returned. -/
theorem C4_get_chunk_shape_dtype_check (store : ObjStore) (arrayName : String)
    (slices : Slices) (dtype : String) (b : NpyBytes)
    (hstored : store (chunk_metadata arrayName slices).1 = some b) :
    (get_chunk store arrayName slices dtype = .ok (read_array b) ↔
      (read_array b).shape = sliceShape slices ∧ (read_array b).dtype = dtype)
  ∧ ((read_array b).shape ≠ sliceShape slices ∨ (read_array b).dtype ≠ dtype →
      get_chunk store arrayName slices dtype
        = .error (.badChunk ("Chunk " ++ (chunk_metadata arrayName slices).1
            ++ ": dtype and/or shape in store differs from expected")))
  ∧ (∀ a, get_chunk store arrayName slices dtype = .ok a → a = read_array b) := by
  have hmeta : (chunk_metadata arrayName slices).2 = sliceShape slices := rfl
  by_cases hc : (read_array b).shape = sliceShape slices ∧ (read_array b).dtype = dtype
  · have hneg : ¬((read_array b).shape ≠ (chunk_metadata arrayName slices).2
        ∨ (read_array b).dtype ≠ dtype) := by
      rw [hmeta]
      push_neg
      exact hc
    refine ⟨?_, fun hmis => ?_, fun a ha => ?_⟩
    · constructor
      · intro _
        exact hc
      · intro _
        simp only [get_chunk, hstored, if_neg hneg]
    · rw [hmeta] at hneg
      exact absurd hmis hneg
    · simp only [get_chunk, hstored, if_neg hneg] at ha
      exact (Except.ok.injEq _ _ ▸ ha).symm
  · have hpos : (read_array b).shape ≠ (chunk_metadata arrayName slices).2
        ∨ (read_array b).dtype ≠ dtype := by
      rw [hmeta]
      by_cases h1 : (read_array b).shape = sliceShape slices
      · exact Or.inr fun h2 => hc ⟨h1, h2⟩
      · exact Or.inl h1
    refine ⟨?_, fun _ => ?_, fun a ha => ?_⟩
    · simp only [get_chunk, hstored, if_pos hpos]
      exact ⟨fun h => by simp at h, fun h => absurd h hc⟩
    · simp only [get_chunk, hstored, if_pos hpos]
    · simp only [get_chunk, hstored, if_pos hpos] at ha
      simp at ha

/-- Witness for C4 at a concrete mismatching store: bytes with dtype `i8`
fetched expecting `f4` raise `BadChunk`, and the matching expectation returns
the decoded array. -/
theorem C4_get_chunk_shape_dtype_check_witness :
    get_chunk (fun k => if k = (chunk_metadata "b/x" [(0, 2)]).1
        then some ⟨"i8", [2], [3, 4]⟩ else none) "b/x" [(0, 2)] "f4"
      = .error (.badChunk ("Chunk " ++ (chunk_metadata "b/x" [(0, 2)]).1
          ++ ": dtype and/or shape in store differs from expected"))
  ∧ get_chunk (fun k => if k = (chunk_metadata "b/x" [(0, 2)]).1
        then some ⟨"i8", [2], [3, 4]⟩ else none) "b/x" [(0, 2)] "i8"
      = .ok (read_array ⟨"i8", [2], [3, 4]⟩) :=
  ⟨(C4_get_chunk_shape_dtype_check _ "b/x" [(0, 2)] "f4" ⟨"i8", [2], [3, 4]⟩
      (by simp)).2.1 (Or.inr (by decide)),
   ((C4_get_chunk_shape_dtype_check _ "b/x" [(0, 2)] "i8" ⟨"i8", [2], [3, 4]⟩
      (by simp)).1).mpr ⟨by decide, by decide⟩⟩

/-- C5: for an array whose shape matches the index ranges, `put_chunk`
followed by `get_chunk` with the same name, ranges and dtype, against a
backend that stores and returns the object bytes unchanged, returns exactly
the original array (same shape, dtype and elements). -/
theorem C5_put_get_round_trip (store : ObjStore) (arrayName : String)
    (slices : Slices) (A : NDArray) (hvalid : A.shape = sliceShape slices) :
    get_chunk (put_chunk store arrayName slices A) arrayName slices A.dtype
      = .ok A := by
  have hdecode : read_array (write_array A) = A := rfl
  have hlookup : put_chunk store arrayName slices A
      (chunk_metadata arrayName slices).1 = some (write_array A) := by
    simp [put_chunk]
  simp only [get_chunk, hlookup, hdecode]
  rw [if_neg]
  push_neg
  exact ⟨hvalid, rfl⟩

/-- Witness for C5: a concrete 2-element array stored and fetched from the
empty backend. -/
theorem C5_put_get_round_trip_witness :
    get_chunk (put_chunk (fun _ => none) "b/x" [(0, 2)] ⟨[2], "f4", [10, 20]⟩)
      "b/x" [(0, 2)] "f4" = .ok ⟨[2], "f4", [10, 20]⟩ :=
  C5_put_get_round_trip (fun _ => none) "b/x" [(0, 2)] ⟨[2], "f4", [10, 20]⟩
    (by decide)

/-- C6: with a finite timeout, if the construction worker has not delivered
its result within `timeout + extra_timeout` seconds, `from_url` raises
`StoreUnavailable` carrying the DNS-stall message; if the worker completes in
time with a failure, that failure is re-raised as it is (original exception
type preserved), and a worker that completes with a store returns it — so the
deadline-exceeded case is distinguishable from a completed probe failure. -/
theorem C6_from_url_deadline (timeout extraTimeout : ℚ) (hostname : String) :
    (∀ workerTime workerResult, timeout + extraTimeout < workerTime →
      from_url timeout extraTimeout hostname workerTime workerResult
        = .error (.storeUnavailable (dnsStallMsg hostname)))
  ∧ (∀ workerTime exc, workerTime ≤ timeout + extraTimeout →
      from_url timeout extraTimeout hostname workerTime (.error exc)
        = .error exc)
  ∧ (∀ workerTime s, workerTime ≤ timeout + extraTimeout →
      from_url timeout extraTimeout hostname workerTime (.ok s) = .ok s) := by
  refine ⟨fun wt w hlate => ?_, fun wt exc hin => ?_, fun wt s hin => ?_⟩
  · simp only [from_url, if_neg (not_le.mpr hlate)]
  · simp only [from_url, if_pos hin]
  · simp only [from_url, if_pos hin]

/-- Witness for C6 with `timeout=10`, `extra_timeout=1`: a worker delivering
at 12s hits the deadline failure, one failing at 5s re-raises its own
exception. -/
theorem C6_from_url_deadline_witness :
    from_url 10 1 "example.net" 12 (.ok ())
      = .error (.storeUnavailable (dnsStallMsg "example.net"))
  ∧ from_url 10 1 "example.net" 5 (.error (.chunkNotFound "gone"))
      = .error (.chunkNotFound "gone") :=
  ⟨(C6_from_url_deadline 10 1 "example.net").1 12 (.ok ()) (by norm_num),
   (C6_from_url_deadline 10 1 "example.net").2.1 5 (.chunkNotFound "gone")
     (by norm_num)⟩

theorem selectMarker_continues {nextMarker : Option Element} {keys : List PyStr}
    (h : keys ≠ []) : ∃ m, selectMarker nextMarker keys = .continueWith m := by
  cases nextMarker with
  | none =>
    exact ⟨some (keys.getLast h), by simp [selectMarker, h]⟩
  | some el =>
    by_cases ht : el.truthy
    · exact ⟨el.text, by simp [selectMarker, ht]⟩
    · exact ⟨some (keys.getLast h), by simp [selectMarker, ht, h]⟩

theorem listLoop_full_run :
    ∀ (pages : List ListPage) (acc : List PyStr) (n : Nat) (hne : pages ≠ [])
      (hmid : ∀ p ∈ pages.dropLast, pageTruncated p = true ∧ p.keys ≠ [])
      (hlast : pageTruncated (pages.getLast hne) = false),
      listLoop pages acc n
        = some (acc ++ (pages.map ListPage.keys).flatten, n + pages.length, false) := by
  intro pages
  induction pages with
  | nil => intro _ _ hne _ _; exact absurd rfl hne
  | cons p rest ih =>
    intro acc n hne hmid hlast
    by_cases hrest : rest = []
    · subst hrest
      have hp : pageTruncated p = false := hlast
      simp [listLoop, hp]
    · have hpmid : pageTruncated p = true ∧ p.keys ≠ [] := by
        apply hmid
        rw [List.dropLast_cons_of_ne_nil hrest]
        exact List.mem_cons_self p _
      have hacc2 : acc ++ p.keys ≠ [] := by
        intro hemp
        exact hpmid.2 (List.append_eq_nil.mp hemp).2
      obtain ⟨m, hm⟩ := @selectMarker_continues p.nextMarker (acc ++ p.keys) hacc2
      have hmid' : ∀ x ∈ rest.dropLast, pageTruncated x = true ∧ x.keys ≠ [] := by
        intro x hx
        apply hmid
        rw [List.dropLast_cons_of_ne_nil hrest]
        exact List.mem_cons_of_mem p hx
      have hlast' : pageTruncated (rest.getLast hrest) = false := by
        rw [← @List.getLast_cons _ p rest hrest]
        exact hlast
      have hrec := ih (acc ++ p.keys) (n + 1) hrest hmid' hlast'
      simp only [listLoop, hpmid.1, if_pos, hm, hrec]
      simp [List.append_assoc]
      omega

theorem stripKey_canonical (pre idx : PyStr) :
    stripKey pre (pre ++ '/' :: (idx ++ npyExt)) = idx := by
  have hdrop : (pre ++ '/' :: (idx ++ npyExt)).drop (pre.length + 1)
      = idx ++ npyExt := by
    rw [show pre ++ '/' :: (idx ++ npyExt)
      = (pre ++ ['/']) ++ (idx ++ npyExt) by simp]
    exact List.drop_left' (by simp)
  have h4 : npyExt.length = 4 := rfl
  simp only [stripKey, hdrop]
  have hlen : (idx ++ npyExt).length - 4 = idx.length := by
    simp [List.length_append, h4]
  rw [hlen]
  exact List.take_left idx _

theorem endsNpy_canonical (pre idx : PyStr) :
    endsNpy (pre ++ '/' :: (idx ++ npyExt)) = true := by
  have hsplit : pre ++ '/' :: (idx ++ npyExt)
      = (pre ++ '/' :: idx) ++ npyExt := by
    simp
  rw [endsNpy, hsplit]
  simp [List.isSuffixOf]

theorem stripKeys_canonical (pre : PyStr) (ids : List PyStr) :
    stripKeys pre (ids.map fun idx => pre ++ '/' :: (idx ++ npyExt)) = ids := by
  induction ids with
  | nil => rfl
  | cons i is ih =>
    simp only [List.map_cons, stripKeys, List.filter_cons,
      endsNpy_canonical, eq_self_iff_true, if_true, List.map_cons,
      stripKey_canonical]
    rw [show ((List.map (fun idx => pre ++ '/' :: (idx ++ npyExt)) is).filter
        endsNpy).map (stripKey pre) = stripKeys pre
          (is.map fun idx => pre ++ '/' :: (idx ++ npyExt)) from rfl, ih]

/-- C7: against a backend answering the n-th listing request with the n-th
page, where every page but the last is truncated and carries keys and the
last is not truncated, `list_chunk_ids` issues exactly one request per page
and returns, in the order received, the concatenation of the pages' keys with
the path prefix and the `.npy` suffix stripped (keys of the canonical
`<prefix>/<index-string>.npy` form strip to exactly their index string). -/
theorem C7_list_chunk_ids_pagination (pages : List ListPage) (pre : PyStr)
    (hne : pages ≠ [])
    (hmid : ∀ p ∈ pages.dropLast, pageTruncated p = true ∧ p.keys ≠ [])
    (hlast : pageTruncated (pages.getLast hne) = false) :
    list_chunk_ids pages pre
      = some (stripKeys pre (pages.map ListPage.keys).flatten, pages.length, false)
  ∧ ∀ ids : List PyStr,
      stripKeys pre (ids.map fun idx => pre ++ '/' :: (idx ++ npyExt)) = ids := by
  constructor
  · have hrun := listLoop_full_run pages [] 0 hne hmid hlast
    simp only [list_chunk_ids, hrun, List.nil_append, Nat.zero_add]
  · exact stripKeys_canonical pre

/-- Witness for C7: a three-page listing (two truncated pages, a final
untruncated one) yields the six index strings in order with exactly three
requests issued. -/
theorem C7_list_chunk_ids_pagination_witness :
    list_chunk_ids
      [⟨["x/00000.npy".data, "x/00001.npy".data],
          some (.mk (some "true".data) []), none⟩,
       ⟨["x/00002.npy".data, "x/00003.npy".data],
          some (.mk (some "true".data) []), none⟩,
       ⟨["x/00004.npy".data, "x/00005.npy".data],
          some (.mk (some "false".data) []), none⟩] "x".data
      = some (["00000".data, "00001".data, "00002".data, "00003".data,
          "00004".data, "00005".data], 3, false) := by
  have h := (C7_list_chunk_ids_pagination
      [⟨["x/00000.npy".data, "x/00001.npy".data],
          some (.mk (some "true".data) []), none⟩,
       ⟨["x/00002.npy".data, "x/00003.npy".data],
          some (.mk (some "true".data) []), none⟩,
       ⟨["x/00004.npy".data, "x/00005.npy".data],
          some (.mk (some "false".data) []), none⟩] "x".data
      (by simp)
      (by
        intro p hp
        rw [show ([⟨["x/00000.npy".data, "x/00001.npy".data],
            some (.mk (some "true".data) []), none⟩,
          ⟨["x/00002.npy".data, "x/00003.npy".data],
            some (.mk (some "true".data) []), none⟩,
          ⟨["x/00004.npy".data, "x/00005.npy".data],
            some (.mk (some "false".data) []), none⟩] : List ListPage).dropLast
          = [⟨["x/00000.npy".data, "x/00001.npy".data],
              some (.mk (some "true".data) []), none⟩,
             ⟨["x/00002.npy".data, "x/00003.npy".data],
              some (.mk (some "true".data) []), none⟩] from rfl] at hp
        rcases List.mem_cons.mp hp with h1 | hp2
        · subst h1
          exact ⟨rfl, by simp⟩
        · rcases List.mem_cons.mp hp2 with h2 | h3
          · subst h2
            exact ⟨rfl, by simp⟩
          · simp at h3)
      (by rfl)).1
  rw [h]
  decide

theorem sendLoop_attempts_le (m : Method) (attempt : Nat → Except ReqFailure Nat) :
    ∀ (retriesLeft i : Nat), (sendLoop m attempt retriesLeft i).2 ≤ i + retriesLeft + 1 := by
  intro retriesLeft
  induction retriesLeft with
  | zero =>
    intro i
    simp only [sendLoop]
    cases attempt i with
    | ok r => simp
    | error f => cases f <;> simp
  | succ k ih =>
    intro i
    simp only [sendLoop]
    cases attempt i with
    | ok r => simp
    | error f =>
      cases f with
      | connectionError msg =>
        by_cases hr : retryableMethod m = true
        · simp only [hr, if_true]
          have := ih (i + 1)
          omega
        · simp only [Bool.not_eq_true] at hr
          simp [hr]
      | httpStatus code => simp

/-- C8: the transport layer configured by `session_factory` caps automatic
retries at 2 (`max_retries=2`), every request completes in at most
`max_retries + 1` attempts, a PUT is issued exactly once whatever happens to
it (never retried, and its failure propagates as it is), and a failure after
a completed exchange (an HTTP error status) is never retried for any method. -/
theorem C8_retry_discipline :
    (adapterMaxRetries = 2
      ∧ ∀ m attempt, (send m attempt).2 ≤ adapterMaxRetries + 1)
  ∧ (∀ attempt, (send .PUT attempt).2 = 1
      ∧ ∀ f, attempt 0 = .error f → (send .PUT attempt).1 = .error f)
  ∧ (∀ m attempt code, attempt 0 = .error (.httpStatus code) →
      send m attempt = (.error (.httpStatus code), 1)) := by
  refine ⟨⟨rfl, fun m attempt => ?_⟩, fun attempt => ⟨?_, fun f hf => ?_⟩,
    fun m attempt code hc => ?_⟩
  · have := sendLoop_attempts_le m attempt adapterMaxRetries 0
    simpa [send] using this
  · simp only [send, adapterMaxRetries, sendLoop]
    cases h0 : attempt 0 with
    | ok r => simp
    | error f => cases f <;> simp [retryableMethod]
  · simp only [send, adapterMaxRetries, sendLoop, hf]
    cases f <;> simp [retryableMethod]
  · simp only [send, adapterMaxRetries, sendLoop, hc]

/-- Witness for C8: a request whose every attempt fails at the connection
level uses all 3 attempts for GET but exactly 1 for PUT, and a GET answered
by an HTTP 500 is not retried. -/
theorem C8_retry_discipline_witness :
    (send .PUT (fun _ => .error (.connectionError "refused"))).2 = 1
  ∧ (send .PUT (fun _ => .error (.connectionError "refused"))).1
      = .error (.connectionError "refused")
  ∧ send .GET (fun _ => .error (.httpStatus 500))
      = (.error (.httpStatus 500), 1)
  ∧ (send .GET (fun _ => .error (.connectionError "refused"))).2
      ≤ adapterMaxRetries + 1 :=
  ⟨(C8_retry_discipline.2.1 (fun _ => .error (.connectionError "refused"))).1,
   (C8_retry_discipline.2.1 (fun _ => .error (.connectionError "refused"))).2
     (.connectionError "refused") rfl,
   C8_retry_discipline.2.2 .GET (fun _ => .error (.httpStatus 500)) 500 rfl,
   (C8_retry_discipline.1).2 .GET (fun _ => .error (.connectionError "refused"))⟩

/-- C9: `_Pool.get` hands back an existing idle session whenever the idle set
is non-empty (leaving the creation count unchanged) and invokes the factory
exactly when the idle set is empty; consequently, over any well-formed
sequence of acquire/release events, the number of sessions ever created
equals the peak number of simultaneously outstanding acquisitions. -/
theorem C9_pool_reuse_and_peak :
    (∀ p : PoolState, p.idle ≠ [] →
      (Pool.get p).1 ∈ p.idle ∧ (Pool.get p).2.created = p.created
        ∧ (Pool.get p).2.idle.length + 1 = p.idle.length)
  ∧ (∀ p : PoolState, p.idle = [] →
      (Pool.get p).1 = p.created ∧ (Pool.get p).2.created = p.created + 1)
  ∧ (∀ ops : List PoolOp, wfFrom 0 ops = true →
      (runPool ops).created = (runPool ops).peak) := by
  refine ⟨fun p hne => ?_, fun p hnil => ?_, fun ops _ => ?_⟩
  · cases hp : popLast p.idle with
    | none => exact absurd (popLast_eq_none.mp hp) hne
    | some q =>
      obtain ⟨x, rest⟩ := q
      obtain ⟨hmem, hlen⟩ := popLast_spec hp
      exact ⟨by simp [Pool.get, hp, hmem], by simp [Pool.get, hp],
        by simp [Pool.get, hp, hlen]⟩
  · have hp : popLast p.idle = none := popLast_eq_none.mpr hnil
    exact ⟨by simp [Pool.get, hp], by simp [Pool.get, hp]⟩
  · exact (runPool_invariant ops).2.symm

/-- Witness for C9: a pool holding idle session 5 is reused; the trace
acquire, acquire, release, acquire creates as many sessions as its peak. -/
theorem C9_pool_reuse_and_peak_witness :
    (Pool.get ⟨[5], 1⟩).1 ∈ [5]
  ∧ (runPool [.acquire, .acquire, .release, .acquire]).created
      = (runPool [.acquire, .acquire, .release, .acquire]).peak :=
  ⟨(C9_pool_reuse_and_peak.1 ⟨[5], 1⟩ (by simp)).1,
   C9_pool_reuse_and_peak.2.2 [.acquire, .acquire, .release, .acquire] rfl⟩

theorem filter_endsNpy_erase {k : PyStr} (hk : endsNpy k = false) :
    ∀ raw : List PyStr, (raw.erase k).filter endsNpy = raw.filter endsNpy := by
  intro raw
  induction raw with
  | nil => rfl
  | cons a as ih =>
    by_cases hak : a = k
    · subst hak
      rw [List.erase_cons_head]
      simp [List.filter_cons, hk]
    · rw [List.erase_cons_tail (by simp [hak])]
      simp only [List.filter_cons, ih]

/-- C10: a key returned by the backend listing that does not end in `.npy` is
silently omitted: the run still succeeds (no error is raised), and the result
is unchanged whether or not that key is present in the retrieved raw keys. -/
theorem C10_non_npy_keys_omitted (pages : List ListPage) (pre : PyStr)
    (raw : List PyStr) (n : Nat) (w : Bool)
    (hrun : listLoop pages [] 0 = some (raw, n, w))
    (k : PyStr) (hk : k ∈ raw) (hnk : endsNpy k = false) :
    list_chunk_ids pages pre = some (stripKeys pre (raw.erase k), n, w)
  ∧ stripKeys pre (raw.erase k) = stripKeys pre raw := by
  have hfil : stripKeys pre (raw.erase k) = stripKeys pre raw := by
    simp only [stripKeys, filter_endsNpy_erase hnk]
  refine ⟨?_, hfil⟩
  simp only [list_chunk_ids, hrun, hfil]

/-- Witness for C10: a single untruncated page carrying one `.npy` key and a
stray `x/readme.txt` key; the result lists only the stripped `.npy` key. -/
theorem C10_non_npy_keys_omitted_witness :
    list_chunk_ids
      [⟨["x/00000.npy".data, "x/readme.txt".data], none, none⟩] "x".data
      = some (stripKeys "x".data
          ((["x/00000.npy".data, "x/readme.txt".data]).erase "x/readme.txt".data),
          1, false)
  ∧ stripKeys "x".data
      ((["x/00000.npy".data, "x/readme.txt".data]).erase "x/readme.txt".data)
      = ["00000".data] := by
  have h := C10_non_npy_keys_omitted
    [⟨["x/00000.npy".data, "x/readme.txt".data], none, none⟩] "x".data
    ["x/00000.npy".data, "x/readme.txt".data] 1 false rfl
    "x/readme.txt".data (by simp) (by decide)
  exact ⟨h.1, by decide⟩
